import Mathlib

/-!
Verification of the critters web viewer client (`main.js`, `stats.js`).

The development shallowly embeds the client-side state and the operations the
viewer performs on it:

* the Entity Display Cache (`critterDisplayData`) as an association list from
  entity id to `DisplayRecord`, together with the live-update reconciliation
  (`handleLiveUpdate`), the manual-update reseed (`handleManualUpdate`) and the
  per-frame selection re-sync from `animationLoop`;
* the render-loop interpolation step `current += (target - current) * 0.1`,
  over `ℚ` (the source uses IEEE doubles; the claims are about the algorithm,
  which is exact rational arithmetic here);
* the canvas hit-test (`handleCanvasClick`), with Euclidean distances compared
  through their squares (the square root is strictly monotone on nonnegative
  reals, so `sqrt a < sqrt b ↔ a < b` and the source's comparisons are
  preserved exactly);
* the dashboard histogram binner (`createHistogramData`) and the bin
  classification used for threshold coloring (`drawDistributionChart`, and the
  label-string comparison of the grouped-bar variant).
-/

namespace Critters

/-- An entity snapshot as served by `/api/world/critters` and stored in the
cache (`critter` field of a display record).  Only the fields the verified
operations inspect are carried: the id, the reported position and the diet;
the remaining payload fields (health, energy, …) are never read by the cache,
interpolation or hit-test logic. -/
structure Critter where
  id : ℕ
  x : ℚ
  y : ℚ
  diet : String
  deriving Repr, DecidableEq

/-- One entry of `critterDisplayData`: the animated current position, the
polled target position, and the last snapshot. -/
structure DisplayRecord where
  currentX : ℚ
  currentY : ℚ
  targetX : ℚ
  targetY : ℚ
  critter : Critter
  deriving Repr, DecidableEq

/-- The Entity Display Cache `critterDisplayData`: id ↦ DisplayRecord, as an
association list.  (In the source this is a JS object keyed by the integer id;
no verified claim depends on its iteration order.) -/
abbrev Cache := List (ℕ × DisplayRecord)

/-- Key lookup, `critterDisplayData[id]`. -/
def lookupId (cache : Cache) (i : ℕ) : Option DisplayRecord :=
  match cache with
  | [] => none
  | p :: rest => if p.1 = i then some p.2 else lookupId rest i

/-- The record created for a newly observed critter:
`{currentX: c.x, currentY: c.y, targetX: c.x, targetY: c.y, critter: c}`. -/
def newRecord (c : Critter) : DisplayRecord :=
  { currentX := c.x, currentY := c.y, targetX := c.x, targetY := c.y, critter := c }

/-- The in-place update applied to an existing record by `handleLiveUpdate`:
only `targetX`, `targetY` and the stored snapshot change. -/
def updatedRec (r : DisplayRecord) (c : Critter) : DisplayRecord :=
  { r with targetX := c.x, targetY := c.y, critter := c }

/-- The body of the second loop of `handleLiveUpdate` for one fetched critter:
update the existing record in place, or insert a fresh one. -/
def upsertCritter (cache : Cache) (c : Critter) : Cache :=
  match cache with
  | [] => [(c.id, newRecord c)]
  | (k, r) :: rest =>
    if k = c.id then (k, updatedRec r c) :: rest
    else (k, r) :: upsertCritter rest c

/-- The removal loop of `handleLiveUpdate`: delete every cache entry whose id
is not in the live id set. -/
def removeStale (cache : Cache) (liveIds : List ℕ) : Cache :=
  cache.filter (fun p => p.1 ∈ liveIds)

/-- The successful-fetch body of `handleLiveUpdate`: remove stale entries,
then upsert every fetched critter in order. -/
def reconcile (cache : Cache) (snaps : List Critter) : Cache :=
  snaps.foldl upsertCritter (removeStale cache (snaps.map Critter.id))

/-- The cache reseed performed by `handleManualUpdate` on critter-fetch
success: `critterDisplayData = {}` followed by inserting every fetched
critter as a fresh record. -/
def seedCache (snaps : List Critter) : Cache :=
  snaps.foldl upsertCritter []

/-- Terrain snapshot (`currentTerrainData`); its contents are irrelevant to
the cache claims, only its presence (the `if (!currentTerrainData) return`
guard) matters. -/
structure TerrainSnapshot where
  tiles : List ℕ
  deriving Repr, DecidableEq

/-- `handleLiveUpdate`, with the network fetch made explicit as an
`Except`-valued argument: the whole mutation block sits inside
`try { await fetchCritters(...); ... } catch (error) { console.error(error) }`,
so on a rejected fetch no mutation runs and the error is logged.  The result
is the new cache paired with the logged error, if any. -/
def handleLiveUpdate (terrain : Option TerrainSnapshot) (cache : Cache)
    (fetchResult : Except String (List Critter)) : Cache × Option String :=
  match terrain with
  | none => (cache, none)
  | some _ =>
    match fetchResult with
    | .ok critterData => (reconcile cache critterData, none)
    | .error e => (cache, some e)

/-- The selection re-sync step of `animationLoop`: if an entity is selected
and its id still has a cache record, replace the selection with that record's
latest snapshot; otherwise the selection is left untouched. -/
def resyncSelection (cache : Cache) (sel : Option Critter) : Option Critter :=
  match sel with
  | none => none
  | some c =>
    match lookupId cache c.id with
    | some r => some r.critter
    | none => some c

/-- The viewport `currentView` (`{x, y, w, h}` in world cells). -/
structure View where
  x : ℚ
  y : ℚ
  w : ℚ
  h : ℚ
  deriving Repr, DecidableEq

/-- The module-level mutable state touched by `handleManualUpdate`: the
viewport, the address-bar query (written by `history.pushState`), the terrain
cache and the entity display cache. -/
structure ViewerState where
  currentView : View
  pageUrl : View
  currentTerrainData : Option TerrainSnapshot
  critterDisplayData : Cache
  deriving Repr, DecidableEq

/-- `handleManualUpdate`, with both network fetches explicit.  The source
writes `currentView` and pushes the new URL *before* the `try` block; inside
the `try` it awaits the terrain fetch (which assigns `currentTerrainData` on
success), then awaits the critter fetch and only then replaces
`critterDisplayData`.  The `catch` only logs, so the function always returns
normally with whatever state had been written up to the failing await. -/
def handleManualUpdate (st : ViewerState) (newView : View)
    (terrainResult : Except String TerrainSnapshot)
    (critterResult : Except String (List Critter)) : ViewerState :=
  let st1 := { st with currentView := newView, pageUrl := newView }
  match terrainResult with
  | .error _ => st1
  | .ok terr =>
    let st2 := { st1 with currentTerrainData := some terr }
    match critterResult with
    | .error _ => st2
    | .ok critterData => { st2 with critterDisplayData := seedCache critterData }

/-! ### Render-loop interpolation (`animationLoop`) -/

/-- One per-frame advance of a coordinate:
`critter.currentX += (critter.targetX - critter.currentX) * 0.1`. -/
def lerpStep (cur tgt : ℚ) : ℚ := cur + (tgt - cur) * (1 / 10)

/-- One render-loop advance of a display record (both coordinates). -/
def advanceRecord (r : DisplayRecord) : DisplayRecord :=
  { r with currentX := lerpStep r.currentX r.targetX
           currentY := lerpStep r.currentY r.targetY }

/-- Remaining horizontal distance to the target. -/
def distToTargetX (r : DisplayRecord) : ℚ := |r.currentX - r.targetX|

/-- Remaining vertical distance to the target. -/
def distToTargetY (r : DisplayRecord) : ℚ := |r.currentY - r.targetY|

/-! ### Hit-testing (`handleCanvasClick`) -/

/-- `CRITTER_DRAW_RADIUS` -/
def CRITTER_DRAW_RADIUS : ℚ := 3

/-- `CRITTER_CLICK_TOLERANCE` -/
def CRITTER_CLICK_TOLERANCE : ℚ := 6

/-- Canvas x of a record's current position:
`(critter.currentX - startX) * tileWidth + tileWidth / 2` with
`tileWidth = canvas.width / currentView.w` and
`startX = currentView.x - currentView.w / 2`. -/
def critterCanvasX (view : View) (canvasW cx : ℚ) : ℚ :=
  (cx - (view.x - view.w / 2)) * (canvasW / view.w) + (canvasW / view.w) / 2

/-- Canvas y of a record's current position, symmetric to `critterCanvasX`. -/
def critterCanvasY (view : View) (canvasH cy : ℚ) : ℚ :=
  (cy - (view.y - view.h / 2)) * (canvasH / view.h) + (canvasH / view.h) / 2

/-- Squared Euclidean distance from the mouse position to a record's
transformed current (interpolated) position.  The source computes
`Math.sqrt` of this quantity; all its uses are `<`-comparisons, which are
equivalent on the squares. -/
def recordDistSq (view : View) (canvasW canvasH mouseX mouseY : ℚ)
    (r : DisplayRecord) : ℚ :=
  (critterCanvasX view canvasW r.currentX - mouseX) ^ 2 +
    (critterCanvasY view canvasH r.currentY - mouseY) ^ 2

/-- The squared selection radius `(CRITTER_DRAW_RADIUS + CRITTER_CLICK_TOLERANCE)²`. -/
def clickThresholdSq : ℚ := (CRITTER_DRAW_RADIUS + CRITTER_CLICK_TOLERANCE) ^ 2

/-- `distance < minDistance` where `minDistance` starts at `Infinity`;
`none` models `Infinity`, and distances are compared squared. -/
def closerThan (dSq : ℚ) (minSq : Option ℚ) : Prop :=
  match minSq with
  | none => True
  | some m => dSq < m

instance (dSq : ℚ) (minSq : Option ℚ) : Decidable (closerThan dSq minSq) := by
  unfold closerThan; cases minSq <;> infer_instance

/-- The body of the hit-test loop for one record, threading
`(closestCritter, minDistance)`; `d` is the (squared) distance function. -/
def clickStep (d : DisplayRecord → ℚ) (tSq : ℚ)
    (acc : Option Critter × Option ℚ) (r : DisplayRecord) :
    Option Critter × Option ℚ :=
  if d r < tSq ∧ closerThan (d r) acc.2 then (some r.critter, some (d r)) else acc

/-- `handleCanvasClick`: scan the cache for the closest record within the
selection radius; the result is the new `selectedCritter` (`none` on a miss). -/
def handleCanvasClick (view : View) (canvasW canvasH mouseX mouseY : ℚ)
    (cache : Cache) : Option Critter :=
  (cache.foldl
    (fun acc p => clickStep (recordDistSq view canvasW canvasH mouseX mouseY)
      clickThresholdSq acc p.2)
    (none, none)).1

/-! ### Dashboard binning and classification (`stats.js`) -/

/-- Health bands of a histogram bar. -/
inductive BinLevel
  | GOOD
  | WARNING
  | CRITICAL
  deriving Repr, DecidableEq

/-- `createHistogramData(rawData, binSize, maxVal)`: increment bin
`floor(value / binSize)` by `count`, ignoring indices past the last bin. -/
def addToBin (data : List ℕ) (idx count : ℕ) : List ℕ :=
  if idx < data.length then data.set idx (data.getD idx 0 + count) else data

/-- The bin lower bounds generated by `for (let i = 0; i < maxVal; i += binSize)`:
`i` takes exactly the values `k * binSize` for `k < ⌈maxVal / binSize⌉`. -/
def binStarts (binSize maxVal : ℕ) : List ℕ :=
  (List.range ((maxVal + binSize - 1) / binSize)).map (· * binSize)

/-- `createHistogramData` from `stats.js`: labels `"i-(i+binSize-1)"` and a
zero-initialised count array over `[0, maxVal)`, then each `(value, count)`
entry of the sparse map added to bin `floor(value / binSize)` when that index
exists (`binIndex < data.length`).  A non-positive `binSize` yields the empty
histogram. -/
def createHistogramData (rawData : List (ℕ × ℕ)) (binSize maxVal : ℕ) :
    List String × List ℕ :=
  if binSize = 0 then ([], [])
  else
    let starts := binStarts binSize maxVal
    let labels := starts.map (fun s => toString s ++ "-" ++ toString (s + binSize - 1))
    let zeros := starts.map (fun _ => 0)
    (labels, rawData.foldl (fun d vc => addToBin d (vc.1 / binSize) vc.2) zeros)

/-- The bar colors of `drawDistributionChart`. -/
def okColor : String := "rgba(75, 192, 192, 0.6)"

/-- Warning bar color. -/
def warningColor : String := "rgba(255, 206, 86, 0.6)"

/-- Critical bar color. -/
def criticalColor : String := "rgba(255, 99, 132, 0.6)"

/-- The per-bar color choice of `drawDistributionChart`, applied to the parsed
lower bound `parseInt(label.split("-")[0])` of a bar. -/
def drawDistributionChartColor (lowIsBad : Bool)
    (criticalThreshold warningThreshold lowerBound : ℤ) : String :=
  if lowIsBad then
    if lowerBound ≤ criticalThreshold then criticalColor
    else if lowerBound ≤ warningThreshold then warningColor
    else okColor
  else
    if lowerBound ≥ criticalThreshold then criticalColor
    else if lowerBound ≥ warningThreshold then warningColor
    else okColor

/-- Modelled from the spec (§4.4): classification of a bin from its lower
bound against the two ordered thresholds and the `lowIsBad` direction flag. -/
def specClassify (lowIsBad : Bool)
    (criticalThreshold warningThreshold lowerBound : ℤ) : BinLevel :=
  if lowIsBad then
    if lowerBound ≤ criticalThreshold then .CRITICAL
    else if lowerBound ≤ warningThreshold then .WARNING
    else .GOOD
  else
    if lowerBound ≥ criticalThreshold then .CRITICAL
    else if lowerBound ≥ warningThreshold then .WARNING
    else .GOOD

/-- The color a classification should map to under `drawDistributionChart`'s
palette. -/
def levelColor : BinLevel → String
  | .GOOD => okColor
  | .WARNING => warningColor
  | .CRITICAL => criticalColor

/-- JavaScript `ToNumber` of a string, as used when a string is compared to a
number with `<=`: restricted here to the inputs that occur, namely
`createHistogramData` labels of the form `"lo-hi"` (never a numeric literal,
hence `NaN`) and plain decimal digit strings.  `none` models `NaN`. -/
def jsToNumber (s : String) : Option ℤ :=
  if s.data = [] then some 0
  else if s.data.all (fun c => c.isDigit) then
    some ((s.data.foldl (fun n c => 10 * n + (c.toNat - 48)) 0 : ℕ) : ℤ)
  else none

/-- JavaScript `s <= n` for a string `s` and number `n`: `s` is converted with
`ToNumber`, and every comparison against `NaN` is `false`. -/
def jsLeNum (s : String) (n : ℤ) : Bool :=
  match jsToNumber s with
  | some v => decide (v ≤ n)
  | none => false

/-- Herbivore energy bar palette of the grouped-bar stats variant
(`COLORS.green`). -/
def greenCrit : String := "rgba(183, 233, 183, 0.7)"

/-- `COLORS.green.warn`. -/
def greenWarn : String := "rgba(139, 213, 139, 0.7)"

/-- `COLORS.green.good`. -/
def greenGood : String := "rgba(75, 192, 75, 0.7)"

/-- The energy-chart `backgroundColor` mapping of the grouped-bar stats
variant: `label <= CRITICAL_ENERGY ? crit : label <= ENERGY_TO_START_RESTING ?
warn : good`, where `label` is the histogram *label string* (e.g. `"0-9"`),
not its parsed lower bound. -/
def energyBinBackgroundColor (criticalEnergy energyToStartResting : ℤ)
    (label : String) : String :=
  if jsLeNum label criticalEnergy then greenCrit
  else if jsLeNum label energyToStartResting then greenWarn
  else greenGood

end Critters

namespace Critters

/-! ### Supporting lemmas: histogram sums -/

theorem length_addToBin (d : List ℕ) (i c : ℕ) : (addToBin d i c).length = d.length := by
  unfold addToBin; split <;> simp

theorem sum_set_getD (d : List ℕ) (i c : ℕ) (h : i < d.length) :
    (d.set i (d.getD i 0 + c)).sum = d.sum + c := by
  induction d generalizing i with
  | nil => simp at h
  | cons a t ih =>
    cases i with
    | zero => simp [List.set]; omega
    | succ j =>
      simp only [List.set, List.sum_cons, List.getD_cons_succ]
      rw [ih j (by simpa using h)]
      omega

theorem sum_addToBin (d : List ℕ) (i c : ℕ) :
    (addToBin d i c).sum = d.sum + (if i < d.length then c else 0) := by
  unfold addToBin
  split
  case isTrue h => rw [sum_set_getD d i c h]
  case isFalse h => simp [h]

theorem sum_foldl_addToBin (binSize : ℕ) (raw : List (ℕ × ℕ)) (d : List ℕ) :
    (raw.foldl (fun d vc => addToBin d (vc.1 / binSize) vc.2) d).sum
      = d.sum + ((raw.filter (fun vc => vc.1 / binSize < d.length)).map Prod.snd).sum := by
  induction raw generalizing d with
  | nil => simp
  | cons vc t ih =>
    simp only [List.foldl_cons]
    rw [ih, length_addToBin, sum_addToBin]
    by_cases h : vc.1 / binSize < d.length
    · simp [h, List.filter_cons]; omega
    · simp [h, List.filter_cons]

end Critters

namespace Critters

/-! ### Claim theorems: dashboards -/

/-- C3: Histogram bin classification.  `drawDistributionChart` computes each
bar's color from the bin's lower bound against the two ordered thresholds
exactly as the spec's classification prescribes (including the concrete
`lowIsBad = true`, `warning = 30`, `critical = 10` reference points), but the
grouped-bar stats variant's energy `backgroundColor` mapping compares the
whole label string to the thresholds — a NaN comparison that is always false —
so the bin with lower bound 0 (label `"0-9"`, which the classification says is
CRITICAL when the critical threshold is 10) receives the GOOD color. -/
theorem classification_lower_bound_vs_label :
    (∀ (lowIsBad : Bool) (crit warn lb : ℤ),
        drawDistributionChartColor lowIsBad crit warn lb
          = levelColor (specClassify lowIsBad crit warn lb))
    ∧ specClassify true 10 30 5 = .CRITICAL
    ∧ specClassify true 10 30 20 = .WARNING
    ∧ specClassify true 10 30 50 = .GOOD
    ∧ drawDistributionChartColor true 10 30 5 = criticalColor
    ∧ drawDistributionChartColor true 10 30 20 = warningColor
    ∧ drawDistributionChartColor true 10 30 50 = okColor
    ∧ energyBinBackgroundColor 10 30 "0-9" = greenGood
    ∧ energyBinBackgroundColor 10 30 "0-9" ≠ greenCrit := by
  refine ⟨?_, by decide, by decide, by decide, by rfl, by rfl, by rfl, by rfl, by decide⟩
  intro lowIsBad crit warn lb
  cases lowIsBad <;>
    simp only [drawDistributionChartColor, specClassify, Bool.false_eq_true,
      if_false, if_true] <;>
    split_ifs <;> rfl

/-- C4: Binning reference vector.  `createHistogramData` with `binSize = 10`,
`maxVal = 101` over `{5: 2, 15: 3, 95: 1}` produces exactly 11 ordered bins;
the bin starting at 0 has count 2, the bin starting at 10 has count 3, the bin
starting at 90 has count 1, and all other bins are 0. -/
theorem binning_reference_vector :
    (createHistogramData [(5, 2), (15, 3), (95, 1)] 10 101).1
      = ["0-9", "10-19", "20-29", "30-39", "40-49", "50-59", "60-69", "70-79",
          "80-89", "90-99", "100-109"]
    ∧ (createHistogramData [(5, 2), (15, 3), (95, 1)] 10 101).2
      = [2, 3, 0, 0, 0, 0, 0, 0, 0, 1, 0]
    ∧ (createHistogramData [(5, 2), (15, 3), (95, 1)] 10 101).1.length = 11 := by
  refine ⟨by decide, by decide, by decide⟩

/-- C8 (amended): out-of-domain values are dropped only beyond the end of the
last generated bin.  For a positive bin width, the sum of all bin counts
equals the sum of the input counts whose value is below
`binWidth * ⌈upperBound / binWidth⌉` (the upper edge of the last bin), not
below `upperBound` itself. -/
theorem histogram_sum_drops_beyond_last_bin
    (rawData : List (ℕ × ℕ)) (binSize maxVal : ℕ) (hb : 0 < binSize) :
    (createHistogramData rawData binSize maxVal).2.sum
      = ((rawData.filter
            (fun vc => vc.1 < ((maxVal + binSize - 1) / binSize) * binSize)).map
          Prod.snd).sum := by
  unfold createHistogramData
  rw [if_neg (Nat.pos_iff_ne_zero.mp hb)]
  simp only
  rw [sum_foldl_addToBin]
  have hlen : ((binStarts binSize maxVal).map (fun _ => (0 : ℕ))).length
      = (maxVal + binSize - 1) / binSize := by
    simp [binStarts]
  have hzero : ((binStarts binSize maxVal).map (fun _ => (0 : ℕ))).sum = 0 := by
    apply List.sum_eq_zero
    intro x hx
    simp at hx
    exact hx.2
  rw [hlen, hzero, Nat.zero_add]
  have hfilter : rawData.filter
        (fun vc => decide (vc.1 / binSize < (maxVal + binSize - 1) / binSize))
      = rawData.filter
        (fun vc => decide (vc.1 < (maxVal + binSize - 1) / binSize * binSize)) :=
    List.filter_congr fun vc _ => decide_eq_decide.mpr (Nat.div_lt_iff_lt_mul hb)
  rw [hfilter]

/-- Closed witness for `histogram_sum_drops_beyond_last_bin`: bin width 10,
upper bound 101 (11 bins ending at 109), values 5 and 105 are kept, 120 is
dropped. -/
theorem histogram_sum_drops_beyond_last_bin_witness :
    0 < 10
    ∧ (createHistogramData [(5, 2), (105, 1), (120, 7)] 10 101).2.sum
      = ((([(5, 2), (105, 1), (120, 7)] : List (ℕ × ℕ)).filter
            (fun vc => vc.1 < ((101 + 10 - 1) / 10) * 10)).map Prod.snd).sum :=
  ⟨by decide, histogram_sum_drops_beyond_last_bin [(5, 2), (105, 1), (120, 7)] 10 101 (by decide)⟩

/-- Counterexample to C8 as stated: with bin width 10 and upper bound 101 the
input value 105 (≥ 101) still lands in the last bin (`100-109`), so the sum of
the bin counts is 1 while the sum of the input counts below the upper bound
is 0. -/
theorem histogram_sum_upper_bound_counterexample :
    (createHistogramData [(105, 1)] 10 101).2.sum = 1
    ∧ ((([(105, 1)] : List (ℕ × ℕ)).filter (fun vc => vc.1 < 101)).map Prod.snd).sum = 0
    ∧ ¬ ((createHistogramData [(105, 1)] 10 101).2.sum
          = ((([(105, 1)] : List (ℕ × ℕ)).filter (fun vc => vc.1 < 101)).map
              Prod.snd).sum) := by
  refine ⟨by decide, by decide, by decide⟩

/-! ### Claim theorems: error paths -/

/-- C9: Live-update error atomicity.  When the critter fetch rejects during a
live update, the Entity Display Cache is returned exactly as it was — every
lookup is unchanged — and the error is the logged value. -/
theorem live_update_error_atomic (t : TerrainSnapshot) (cache : Cache) (e : String) :
    handleLiveUpdate (some t) cache (.error e) = (cache, some e)
    ∧ (∀ i, lookupId (handleLiveUpdate (some t) cache (.error e)).1 i = lookupId cache i)
    ∧ (handleLiveUpdate (some t) cache (.error e)).2 = some e :=
  ⟨rfl, fun _ => rfl, rfl⟩

/-- C10: Manual viewport update is not atomic on failure.  The new viewport is
written to `currentView` and the page URL before any fetch, so a failed
terrain fetch leaves the new view with the old terrain and old critters, and a
successful terrain fetch followed by a failed critter fetch leaves the new
terrain with the old critters. -/
theorem manual_update_not_atomic (st : ViewerState) (v : View) (e e2 : String)
    (critterResult : Except String (List Critter)) (terr : TerrainSnapshot) :
    (handleManualUpdate st v (.error e) critterResult).currentView = v
    ∧ (handleManualUpdate st v (.error e) critterResult).pageUrl = v
    ∧ (handleManualUpdate st v (.error e) critterResult).currentTerrainData
        = st.currentTerrainData
    ∧ (handleManualUpdate st v (.error e) critterResult).critterDisplayData
        = st.critterDisplayData
    ∧ (handleManualUpdate st v (.ok terr) (.error e2)).currentView = v
    ∧ (handleManualUpdate st v (.ok terr) (.error e2)).pageUrl = v
    ∧ (handleManualUpdate st v (.ok terr) (.error e2)).currentTerrainData = some terr
    ∧ (handleManualUpdate st v (.ok terr) (.error e2)).critterDisplayData
        = st.critterDisplayData :=
  ⟨rfl, rfl, rfl, rfl, rfl, rfl, rfl, rfl⟩

end Critters

namespace Critters

theorem lookupId_upsert_self (m : Cache) (c : Critter) :
    lookupId (upsertCritter m c) c.id
      = some ((lookupId m c.id).elim (newRecord c) (fun r => updatedRec r c)) := by
  induction m with
  | nil => simp [upsertCritter, lookupId]
  | cons p rest ih =>
    obtain ⟨k, r⟩ := p
    by_cases hk : k = c.id
    · subst hk; simp [upsertCritter, lookupId]
    · simp [upsertCritter, lookupId, hk, ih]

theorem lookupId_upsert_ne (m : Cache) (c : Critter) {i : ℕ} (h : i ≠ c.id) :
    lookupId (upsertCritter m c) i = lookupId m i := by
  induction m with
  | nil => simp [upsertCritter, lookupId, Ne.symm h]
  | cons p rest ih =>
    obtain ⟨k, r⟩ := p
    by_cases hk : k = c.id
    · subst hk; simp [upsertCritter, lookupId, Ne.symm h]
    · simp [upsertCritter, lookupId, hk, ih]

theorem lookupId_foldl_not_mem (l : List Critter) (m : Cache) {i : ℕ}
    (h : i ∉ l.map Critter.id) :
    lookupId (l.foldl upsertCritter m) i = lookupId m i := by
  induction l generalizing m with
  | nil => rfl
  | cons a t ih =>
    simp only [List.map_cons, List.mem_cons, not_or] at h
    rw [List.foldl_cons, ih (upsertCritter m a) h.2, lookupId_upsert_ne m a h.1]

theorem lookupId_upsert_isSome_iff (m : Cache) (c : Critter) (i : ℕ) :
    (lookupId (upsertCritter m c) i).isSome ↔ i = c.id ∨ (lookupId m i).isSome := by
  by_cases h : i = c.id
  · subst h; simp [lookupId_upsert_self]
  · simp [lookupId_upsert_ne m c h, h]

theorem lookupId_foldl_isSome_iff (l : List Critter) (m : Cache) (i : ℕ) :
    (lookupId (l.foldl upsertCritter m) i).isSome
      ↔ i ∈ l.map Critter.id ∨ (lookupId m i).isSome := by
  induction l generalizing m with
  | nil => simp
  | cons a t ih =>
    simp only [List.foldl_cons, List.map_cons, List.mem_cons]
    rw [ih, lookupId_upsert_isSome_iff]
    tauto

theorem lookupId_removeStale (m : Cache) (ids : List ℕ) (i : ℕ) :
    lookupId (removeStale m ids) i = if i ∈ ids then lookupId m i else none := by
  induction m with
  | nil => simp [removeStale, lookupId]
  | cons p rest ih =>
    obtain ⟨k, r⟩ := p
    by_cases hk : k ∈ ids
    · by_cases hki : k = i
      · subst hki
        simp [removeStale, List.filter_cons, hk, lookupId]
      · simp only [removeStale, List.filter_cons] at ih ⊢
        simp [hk, lookupId, hki, ih]
    · by_cases hki : k = i
      · subst hki
        simp only [removeStale, List.filter_cons] at ih ⊢
        simp [hk, lookupId, ih]
      · simp only [removeStale, List.filter_cons] at ih ⊢
        simp [hk, lookupId, hki, ih]

theorem reconcile_mem_iff (m : Cache) (snaps : List Critter) (i : ℕ) :
    (lookupId (reconcile m snaps) i).isSome ↔ i ∈ snaps.map Critter.id := by
  unfold reconcile
  rw [lookupId_foldl_isSome_iff, lookupId_removeStale]
  by_cases h : i ∈ snaps.map Critter.id <;> simp [h]

end Critters

namespace Critters

theorem lookupId_foldl_mem (l : List Critter) (hnd : (l.map Critter.id).Nodup)
    (c : Critter) (hc : c ∈ l) (m : Cache) :
    lookupId (l.foldl upsertCritter m) c.id
      = some ((lookupId m c.id).elim (newRecord c) (fun r => updatedRec r c)) := by
  induction l generalizing m with
  | nil => cases hc
  | cons a t ih =>
    simp only [List.map_cons, List.nodup_cons] at hnd
    rcases List.mem_cons.mp hc with hca | hct
    · subst hca
      rw [List.foldl_cons, lookupId_foldl_not_mem t (upsertCritter m c) hnd.1,
        lookupId_upsert_self]
    · have hne : c.id ≠ a.id := by
        intro he
        exact hnd.1 (he ▸ List.mem_map_of_mem Critter.id hct)
      rw [List.foldl_cons, ih hnd.2 hct (upsertCritter m a),
        lookupId_upsert_ne m a hne]

theorem reconcile_lookup (m : Cache) (snaps : List Critter)
    (hnd : (snaps.map Critter.id).Nodup) (c : Critter) (hc : c ∈ snaps) :
    lookupId (reconcile m snaps) c.id
      = some ((lookupId m c.id).elim (newRecord c) (fun r => updatedRec r c)) := by
  unfold reconcile
  rw [lookupId_foldl_mem snaps hnd c hc, lookupId_removeStale]
  rw [if_pos (List.mem_map_of_mem Critter.id hc)]

theorem lookupId_isSome_iff_mem_keys (m : Cache) (i : ℕ) :
    (lookupId m i).isSome ↔ i ∈ m.map Prod.fst := by
  induction m with
  | nil => simp [lookupId]
  | cons p rest ih =>
    by_cases h : p.1 = i
    · simp [lookupId, h]
    · simp [lookupId, h, ih, Ne.symm h]

theorem keys_upsert (m : Cache) (c : Critter) :
    (upsertCritter m c).map Prod.fst
      = if (lookupId m c.id).isSome then m.map Prod.fst
        else m.map Prod.fst ++ [c.id] := by
  induction m with
  | nil => simp [upsertCritter, lookupId]
  | cons p rest ih =>
    obtain ⟨k, r⟩ := p
    by_cases hk : k = c.id
    · subst hk; simp [upsertCritter, lookupId]
    · simp only [upsertCritter, lookupId, hk, if_false, List.map_cons, ih]
      split <;> simp

theorem keys_upsert_nodup (m : Cache) (c : Critter)
    (h : (m.map Prod.fst).Nodup) : ((upsertCritter m c).map Prod.fst).Nodup := by
  rw [keys_upsert]
  split
  case isTrue => exact h
  case isFalse hns =>
    have : c.id ∉ m.map Prod.fst := by
      rw [← lookupId_isSome_iff_mem_keys]
      simpa using hns
    simp [List.nodup_append, h, this]

theorem keys_foldl_nodup (l : List Critter) (m : Cache)
    (h : (m.map Prod.fst).Nodup) :
    ((l.foldl upsertCritter m).map Prod.fst).Nodup := by
  induction l generalizing m with
  | nil => exact h
  | cons a t ih => exact ih (upsertCritter m a) (keys_upsert_nodup m a h)

theorem keys_removeStale (m : Cache) (ids : List ℕ) :
    (removeStale m ids).map Prod.fst
      = (m.map Prod.fst).filter (fun k => k ∈ ids) := by
  induction m with
  | nil => rfl
  | cons p rest ih =>
    simp only [removeStale, List.filter_cons, List.map_cons] at ih ⊢
    by_cases h : p.1 ∈ ids <;> simp [h, ih]

theorem reconcile_length (m : Cache) (snaps : List Critter)
    (hm : (m.map Prod.fst).Nodup) (hs : (snaps.map Critter.id).Nodup) :
    (reconcile m snaps).length = snaps.length := by
  have hkeys : ((reconcile m snaps).map Prod.fst).Nodup := by
    unfold reconcile
    apply keys_foldl_nodup
    rw [keys_removeStale]
    exact hm.filter _
  have hmem : ∀ i, i ∈ (reconcile m snaps).map Prod.fst ↔ i ∈ snaps.map Critter.id := by
    intro i
    rw [← lookupId_isSome_iff_mem_keys, reconcile_mem_iff]
  have hperm : List.Perm ((reconcile m snaps).map Prod.fst) (snaps.map Critter.id) :=
    (List.perm_ext_iff_of_nodup hkeys hs).mpr hmem
  have := hperm.length_eq
  simpa using this

end Critters

namespace Critters

def sampleR1 : DisplayRecord := ⟨10, 10, 12, 12, ⟨1, 12, 12, "HERBIVORE"⟩⟩

def sampleR2 : DisplayRecord := ⟨20, 20, 20, 20, ⟨2, 20, 20, "CARNIVORE"⟩⟩

def sampleR3 : DisplayRecord := ⟨30, 30, 31, 31, ⟨3, 31, 31, "HERBIVORE"⟩⟩

def sampleCache : Cache := [(1, sampleR1), (2, sampleR2), (3, sampleR3)]

def sampleC1 : Critter := ⟨1, 13, 13, "HERBIVORE"⟩

def sampleC3 : Critter := ⟨3, 32, 32, "HERBIVORE"⟩

def sampleC4 : Critter := ⟨4, 40, 40, "CARNIVORE"⟩

def sampleSnaps : List Critter := [sampleC1, sampleC3, sampleC4]

/-- C1: Entity Display Cache reconciliation.  After a successful live fetch,
an id has a record exactly when it occurs in the fetched list; a previously
existing record keeps `currentX`/`currentY` and only `targetX`/`targetY` and
the stored snapshot change; a new id gets `current = target = snapshot
position`; and (for duplicate-free keys and ids) the cache size equals the
number of ids in the most recent fetch. -/
theorem reconcile_spec (cache : Cache) (snaps : List Critter) :
    (∀ i, (lookupId (reconcile cache snaps) i).isSome ↔ i ∈ snaps.map Critter.id)
    ∧ ((snaps.map Critter.id).Nodup →
        ∀ c ∈ snaps, ∀ r, lookupId cache c.id = some r →
          lookupId (reconcile cache snaps) c.id = some (updatedRec r c))
    ∧ ((snaps.map Critter.id).Nodup →
        ∀ c ∈ snaps, lookupId cache c.id = none →
          lookupId (reconcile cache snaps) c.id = some (newRecord c))
    ∧ (∀ r c, (updatedRec r c).currentX = r.currentX
        ∧ (updatedRec r c).currentY = r.currentY
        ∧ (updatedRec r c).targetX = c.x ∧ (updatedRec r c).targetY = c.y
        ∧ (updatedRec r c).critter = c)
    ∧ (∀ c, (newRecord c).currentX = c.x ∧ (newRecord c).currentY = c.y
        ∧ (newRecord c).targetX = c.x ∧ (newRecord c).targetY = c.y
        ∧ (newRecord c).critter = c)
    ∧ ((cache.map Prod.fst).Nodup → (snaps.map Critter.id).Nodup →
        (reconcile cache snaps).length = snaps.length) := by
  refine ⟨reconcile_mem_iff cache snaps, ?_, ?_,
    fun r c => ⟨rfl, rfl, rfl, rfl, rfl⟩, fun c => ⟨rfl, rfl, rfl, rfl, rfl⟩,
    reconcile_length cache snaps⟩
  · intro hnd c hc r hr
    rw [reconcile_lookup cache snaps hnd c hc, hr]
    rfl
  · intro hnd c hc hr
    rw [reconcile_lookup cache snaps hnd c hc, hr]
    rfl

/-- Closed witness for `reconcile_spec`: prior cache `{1, 2, 3}`, fetch
`{1, 3, 4}`. -/
theorem reconcile_spec_witness :
    ((lookupId (reconcile sampleCache sampleSnaps) 2).isSome
      ↔ 2 ∈ sampleSnaps.map Critter.id)
    ∧ lookupId (reconcile sampleCache sampleSnaps) 1 = some (updatedRec sampleR1 sampleC1)
    ∧ lookupId (reconcile sampleCache sampleSnaps) 4 = some (newRecord sampleC4)
    ∧ (reconcile sampleCache sampleSnaps).length = 3 :=
  ⟨(reconcile_spec sampleCache sampleSnaps).1 2,
    (reconcile_spec sampleCache sampleSnaps).2.1 (by decide) sampleC1 (by decide)
      sampleR1 (by decide),
    (reconcile_spec sampleCache sampleSnaps).2.2.1 (by decide) sampleC4 (by decide)
      (by decide),
    (reconcile_spec sampleCache sampleSnaps).2.2.2.2.2 (by decide) (by decide)⟩

theorem updatedRec_self (r : DisplayRecord) (c : Critter)
    (h1 : r.targetX = c.x) (h2 : r.targetY = c.y) (h3 : r.critter = c) :
    updatedRec r c = r := by
  cases r; simp_all [updatedRec]

theorem upsert_eq_self (m : Cache) (c : Critter) (r : DisplayRecord)
    (hr : lookupId m c.id = some r) (hu : updatedRec r c = r) :
    upsertCritter m c = m := by
  induction m with
  | nil => simp [lookupId] at hr
  | cons p rest ih =>
    obtain ⟨k, v⟩ := p
    by_cases hk : k = c.id
    · subst hk
      simp [lookupId] at hr
      subst hr
      simp [upsertCritter, hu]
    · simp only [lookupId, hk, if_false] at hr
      simp [upsertCritter, hk, ih hr]

theorem foldl_upsert_eq_self (l : List Critter) (m : Cache)
    (h : ∀ c ∈ l, ∃ r, lookupId m c.id = some r ∧ updatedRec r c = r) :
    l.foldl upsertCritter m = m := by
  induction l with
  | nil => rfl
  | cons a t ih =>
    obtain ⟨r, hr, hu⟩ := h a (List.mem_cons_self a t)
    rw [List.foldl_cons, upsert_eq_self m a r hr hu]
    exact ih fun c hc => h c (List.mem_cons_of_mem a hc)

/-- C7: Reconciliation idempotence.  Reconciling twice with the same snapshot
list (duplicate-free ids) yields literally the same cache as reconciling
once: the second pass removes nothing and every upsert rewrites each record
with its existing field values, so no `current*` is reset. -/
theorem reconcile_idempotent (cache : Cache) (snaps : List Critter)
    (hnd : (snaps.map Critter.id).Nodup) :
    reconcile (reconcile cache snaps) snaps = reconcile cache snaps := by
  have hstale : removeStale (reconcile cache snaps) (snaps.map Critter.id)
      = reconcile cache snaps := by
    unfold removeStale
    apply List.filter_eq_self.mpr
    intro p hp
    have h1 : (lookupId (reconcile cache snaps) p.1).isSome := by
      rw [lookupId_isSome_iff_mem_keys]
      exact List.mem_map_of_mem Prod.fst hp
    have h2 := (reconcile_mem_iff cache snaps p.1).mp h1
    simpa using h2
  show List.foldl upsertCritter
      (removeStale (reconcile cache snaps) (snaps.map Critter.id)) snaps
    = reconcile cache snaps
  rw [hstale]
  apply foldl_upsert_eq_self
  intro c hc
  have hl := reconcile_lookup cache snaps hnd c hc
  cases hcl : lookupId cache c.id with
  | some r => exact ⟨updatedRec r c, by rw [hl, hcl]; rfl, rfl⟩
  | none => exact ⟨newRecord c, by rw [hl, hcl]; rfl, rfl⟩

/-- Closed witness for `reconcile_idempotent`. -/
theorem reconcile_idempotent_witness :
    (sampleSnaps.map Critter.id).Nodup
    ∧ reconcile (reconcile sampleCache sampleSnaps) sampleSnaps
        = reconcile sampleCache sampleSnaps :=
  ⟨by decide, reconcile_idempotent sampleCache sampleSnaps (by decide)⟩

def staleSel : Critter := ⟨7, 2, 3, "HERBIVORE"⟩

/-- C6 counterexample: entity 7 is selected and its cache record exists; a
live update whose fetched list is empty removes the record, yet the
`animationLoop` selection re-sync leaves the selection holding the stale
snapshot — it does not become `none` as the claim states. -/
theorem selection_disappearance_counterexample :
    resyncSelection
        (handleLiveUpdate (some ⟨[]⟩) [(7, newRecord staleSel)] (.ok [])).1
        (some staleSel)
      = some staleSel
    ∧ ¬ (resyncSelection
          (handleLiveUpdate (some ⟨[]⟩) [(7, newRecord staleSel)] (.ok [])).1
          (some staleSel)
        = none) := by
  refine ⟨by decide, by decide⟩

/-- C6 (amended): when the selected id disappears from the fetched list, its
record is removed from the cache, but the selection is *not* cleared — the
re-sync step leaves the stale snapshot selected (and the detail panel keeps
rendering it). -/
theorem selection_stale_on_disappearance (cache : Cache) (snaps : List Critter)
    (c : Critter) (h : c.id ∉ snaps.map Critter.id) :
    lookupId (reconcile cache snaps) c.id = none
    ∧ resyncSelection (reconcile cache snaps) (some c) = some c := by
  have hnone : lookupId (reconcile cache snaps) c.id = none := by
    rw [← Option.not_isSome_iff_eq_none, reconcile_mem_iff]
    exact h
  exact ⟨hnone, by simp [resyncSelection, hnone]⟩

/-- Closed witness for `selection_stale_on_disappearance`. -/
theorem selection_stale_on_disappearance_witness :
    (staleSel.id ∉ ([] : List Critter).map Critter.id)
    ∧ (lookupId (reconcile [(7, newRecord staleSel)] []) staleSel.id = none
        ∧ resyncSelection (reconcile [(7, newRecord staleSel)] []) (some staleSel)
            = some staleSel) :=
  ⟨by decide,
    selection_stale_on_disappearance [(7, newRecord staleSel)] [] staleSel (by decide)⟩

end Critters

namespace Critters

theorem advanceRecord_target (r : DisplayRecord) (n : ℕ) :
    (advanceRecord^[n] r).targetX = r.targetX
    ∧ (advanceRecord^[n] r).targetY = r.targetY := by
  induction n with
  | zero => exact ⟨rfl, rfl⟩
  | succ k ih =>
    rw [Function.iterate_succ_apply']
    exact ⟨ih.1 ▸ rfl, ih.2 ▸ rfl⟩

theorem advanceRecord_closed_formX (r : DisplayRecord) (n : ℕ) :
    (advanceRecord^[n] r).currentX - r.targetX
      = (9 / 10) ^ n * (r.currentX - r.targetX) := by
  induction n with
  | zero => simp
  | succ k ih =>
    rw [Function.iterate_succ_apply']
    have ht := (advanceRecord_target r k).1
    show lerpStep (advanceRecord^[k] r).currentX (advanceRecord^[k] r).targetX - r.targetX = _
    rw [ht, lerpStep, pow_succ]
    have : (advanceRecord^[k] r).currentX + (r.targetX - (advanceRecord^[k] r).currentX) * (1 / 10) - r.targetX
        = ((advanceRecord^[k] r).currentX - r.targetX) * (9 / 10) := by ring
    rw [this, ih]
    ring

theorem advanceRecord_closed_formY (r : DisplayRecord) (n : ℕ) :
    (advanceRecord^[n] r).currentY - r.targetY
      = (9 / 10) ^ n * (r.currentY - r.targetY) := by
  induction n with
  | zero => simp
  | succ k ih =>
    rw [Function.iterate_succ_apply']
    have ht := (advanceRecord_target r k).2
    show lerpStep (advanceRecord^[k] r).currentY (advanceRecord^[k] r).targetY - r.targetY = _
    rw [ht, lerpStep, pow_succ]
    have : (advanceRecord^[k] r).currentY + (r.targetY - (advanceRecord^[k] r).currentY) * (1 / 10) - r.targetY
        = ((advanceRecord^[k] r).currentY - r.targetY) * (9 / 10) := by ring
    rw [this, ih]
    ring

theorem geom_decay_bound (d : ℚ) (hd : 0 ≤ d) {ε : ℚ} (hε : 0 < ε) :
    ∃ N : ℕ, ∀ n : ℕ, N ≤ n → (9 / 10 : ℚ) ^ n * d < ε := by
  rcases eq_or_lt_of_le hd with hd0 | hd0
  · exact ⟨0, fun n _ => by rw [← hd0]; simpa using hε⟩
  · obtain ⟨N, hN⟩ := exists_pow_lt_of_lt_one (div_pos hε hd0) (by norm_num : (9 / 10 : ℚ) < 1)
    refine ⟨N, fun n hn => ?_⟩
    have h1 : (9 / 10 : ℚ) ^ n ≤ (9 / 10 : ℚ) ^ N :=
      pow_le_pow_of_le_one (by norm_num) (by norm_num) hn
    have h2 : (9 / 10 : ℚ) ^ n * d ≤ (9 / 10 : ℚ) ^ N * d :=
      mul_le_mul_of_nonneg_right h1 hd
    have h3 : (9 / 10 : ℚ) ^ N * d < ε := (lt_div_iff₀ hd0).mp hN
    exact lt_of_le_of_lt h2 h3

end Critters

namespace Critters

theorem distToTargetX_iterate (r : DisplayRecord) (n : ℕ) :
    distToTargetX (advanceRecord^[n] r) = (9 / 10) ^ n * distToTargetX r := by
  simp only [distToTargetX]
  rw [(advanceRecord_target r n).1, advanceRecord_closed_formX, abs_mul,
    abs_of_nonneg (pow_nonneg (by norm_num : (0 : ℚ) ≤ 9 / 10) n)]

theorem distToTargetY_iterate (r : DisplayRecord) (n : ℕ) :
    distToTargetY (advanceRecord^[n] r) = (9 / 10) ^ n * distToTargetY r := by
  simp only [distToTargetY]
  rw [(advanceRecord_target r n).2, advanceRecord_closed_formY, abs_mul,
    abs_of_nonneg (pow_nonneg (by norm_num : (0 : ℚ) ≤ 9 / 10) n)]

theorem distToTargetX_nonneg (r : DisplayRecord) : 0 ≤ distToTargetX r :=
  abs_nonneg _

theorem distToTargetY_nonneg (r : DisplayRecord) : 0 ≤ distToTargetY r :=
  abs_nonneg _

/-- C2: Interpolation convergence.  One render-loop advance replaces each
current coordinate with `current + (target - current) * 0.1`; the target is
untouched; each step multiplies the remaining distance by exactly 9/10 (so the
current position moves strictly closer whenever it differs from the target and
never moves away), successive offsets from the target never change sign (no
overshoot), and for every positive ε a bounded number of steps brings both
distances below ε. -/
theorem interpolation_convergence (r : DisplayRecord) :
    ((advanceRecord r).currentX = r.currentX + (r.targetX - r.currentX) * (1 / 10)
      ∧ (advanceRecord r).currentY = r.currentY + (r.targetY - r.currentY) * (1 / 10))
    ∧ (∀ n : ℕ, (advanceRecord^[n] r).targetX = r.targetX
        ∧ (advanceRecord^[n] r).targetY = r.targetY)
    ∧ (∀ n : ℕ,
        distToTargetX (advanceRecord^[n + 1] r)
            = (9 / 10) * distToTargetX (advanceRecord^[n] r)
        ∧ distToTargetY (advanceRecord^[n + 1] r)
            = (9 / 10) * distToTargetY (advanceRecord^[n] r))
    ∧ (∀ n : ℕ,
        0 ≤ ((advanceRecord^[n + 1] r).currentX - r.targetX)
              * ((advanceRecord^[n] r).currentX - r.targetX)
        ∧ 0 ≤ ((advanceRecord^[n + 1] r).currentY - r.targetY)
              * ((advanceRecord^[n] r).currentY - r.targetY))
    ∧ (∀ ε : ℚ, 0 < ε → ∃ N : ℕ, ∀ n : ℕ, N ≤ n →
        distToTargetX (advanceRecord^[n] r) < ε
        ∧ distToTargetY (advanceRecord^[n] r) < ε) := by
  refine ⟨⟨rfl, rfl⟩, advanceRecord_target r, fun n => ⟨?_, ?_⟩, fun n => ⟨?_, ?_⟩, ?_⟩
  · rw [distToTargetX_iterate, distToTargetX_iterate, pow_succ]; ring
  · rw [distToTargetY_iterate, distToTargetY_iterate, pow_succ]; ring
  · rw [advanceRecord_closed_formX, advanceRecord_closed_formX]
    have h : (9 / 10 : ℚ) ^ (n + 1) * (r.currentX - r.targetX)
          * ((9 / 10) ^ n * (r.currentX - r.targetX))
        = (9 / 10) ^ (n + 1) * (9 / 10) ^ n * (r.currentX - r.targetX) ^ 2 := by
      ring
    rw [h]
    positivity
  · rw [advanceRecord_closed_formY, advanceRecord_closed_formY]
    have h : (9 / 10 : ℚ) ^ (n + 1) * (r.currentY - r.targetY)
          * ((9 / 10) ^ n * (r.currentY - r.targetY))
        = (9 / 10) ^ (n + 1) * (9 / 10) ^ n * (r.currentY - r.targetY) ^ 2 := by
      ring
    rw [h]
    positivity
  · intro ε hε
    obtain ⟨Nx, hNx⟩ := geom_decay_bound (distToTargetX r) (distToTargetX_nonneg r) hε
    obtain ⟨Ny, hNy⟩ := geom_decay_bound (distToTargetY r) (distToTargetY_nonneg r) hε
    refine ⟨max Nx Ny, fun n hn => ⟨?_, ?_⟩⟩
    · rw [distToTargetX_iterate]
      exact hNx n (le_trans (le_max_left _ _) hn)
    · rw [distToTargetY_iterate]
      exact hNy n (le_trans (le_max_right _ _) hn)

def sampleRec : DisplayRecord := ⟨0, 0, 8, 8, sampleC1⟩

/-- Closed witness for `interpolation_convergence` at ε = 1 on a record 8
cells from its target. -/
theorem interpolation_convergence_witness :
    (0 : ℚ) < 1
    ∧ ∃ N : ℕ, ∀ n : ℕ, N ≤ n →
        distToTargetX (advanceRecord^[n] sampleRec) < 1
        ∧ distToTargetY (advanceRecord^[n] sampleRec) < 1 :=
  ⟨by norm_num, (interpolation_convergence sampleRec).2.2.2.2 1 (by norm_num)⟩

end Critters

namespace Critters

theorem closerThan_none (dSq : ℚ) : closerThan dSq none := trivial

theorem closerThan_some (dSq m : ℚ) : closerThan dSq (some m) ↔ dSq < m := Iff.rfl

theorem clickFold_inv (d : DisplayRecord → ℚ) (tSq : ℚ) (l seen : List DisplayRecord)
    (acc : Option Critter × Option ℚ)
    (hinv : (acc = (none, none) ∧ ∀ r ∈ seen, tSq ≤ d r)
      ∨ (∃ c m, acc = (some c, some m) ∧ m < tSq
          ∧ (∃ r ∈ seen, r.critter = c ∧ d r = m)
          ∧ ∀ r ∈ seen, m ≤ d r)) :
    (l.foldl (clickStep d tSq) acc = (none, none) ∧ ∀ r ∈ seen ++ l, tSq ≤ d r)
    ∨ (∃ c m, l.foldl (clickStep d tSq) acc = (some c, some m) ∧ m < tSq
        ∧ (∃ r ∈ seen ++ l, r.critter = c ∧ d r = m)
        ∧ ∀ r ∈ seen ++ l, m ≤ d r) := by
  induction l generalizing seen acc with
  | nil => simpa using hinv
  | cons a t ih =>
    rw [List.foldl_cons, show seen ++ a :: t = (seen ++ [a]) ++ t by simp]
    by_cases hcond : d a < tSq ∧ closerThan (d a) acc.2
    · have hstep : clickStep d tSq acc a = (some a.critter, some (d a)) := by
        simp [clickStep, hcond]
      rw [hstep]
      apply ih (seen ++ [a])
      right
      refine ⟨a.critter, d a, rfl, hcond.1, ⟨a, by simp, rfl, rfl⟩, ?_⟩
      intro r hr
      rcases List.mem_append.mp hr with hrs | hra
      · rcases hinv with ⟨_, hseen⟩ | ⟨c, m, hacce, hmt, _, hmin⟩
        · exact le_of_lt (lt_of_lt_of_le hcond.1 (hseen r hrs))
        · have hdm : d a < m := by
            have h2 := hcond.2
            rw [hacce] at h2
            exact h2
          exact le_of_lt (lt_of_lt_of_le hdm (hmin r hrs))
      · rw [List.mem_singleton.mp hra]
    · have hstep : clickStep d tSq acc a = acc := by
        simp only [clickStep, if_neg hcond]
      rw [hstep]
      apply ih (seen ++ [a])
      rcases hinv with ⟨hacce, hseen⟩ | ⟨c, m, hacce, hmt, hwit, hmin⟩
      · left
        refine ⟨hacce, ?_⟩
        intro r hr
        rcases List.mem_append.mp hr with hrs | hra
        · exact hseen r hrs
        · rw [List.mem_singleton.mp hra]
          have h1 : ¬ d a < tSq := by
            intro h1
            exact hcond ⟨h1, by rw [hacce]; exact closerThan_none (d a)⟩
          exact not_lt.mp h1
      · right
        have hma : m ≤ d a := by
          rcases not_and_or.mp hcond with h | h
          · exact le_of_lt (lt_of_lt_of_le hmt (not_lt.mp h))
          · rw [hacce] at h
            exact not_lt.mp h
        refine ⟨c, m, hacce, hmt, ?_, ?_⟩
        · obtain ⟨r, hr, hrc, hrd⟩ := hwit
          exact ⟨r, List.mem_append.mpr (Or.inl hr), hrc, hrd⟩
        · intro r hr
          rcases List.mem_append.mp hr with hrs | hra
          · exact hmin r hrs
          · rw [List.mem_singleton.mp hra]
            exact hma

end Critters

namespace Critters

/-- C5: Hit-test.  `handleCanvasClick` clears the selection exactly when no
record's current (interpolated) position lies strictly within
`CRITTER_DRAW_RADIUS + CRITTER_CLICK_TOLERANCE` of the pointer (distances
compared squared, which is equivalent for the source's `<`-comparisons on
`Math.sqrt` values); and whenever it selects a critter, that critter comes
from a record strictly within the radius whose distance is minimal over the
whole cache — so a pointer exactly on an entity selects it and of two
entities within tolerance the nearer wins. -/
theorem hit_test_spec (view : View) (canvasW canvasH mouseX mouseY : ℚ) (cache : Cache) :
    (handleCanvasClick view canvasW canvasH mouseX mouseY cache = none
      ↔ ∀ p ∈ cache, clickThresholdSq ≤ recordDistSq view canvasW canvasH mouseX mouseY p.2)
    ∧ (∀ c, handleCanvasClick view canvasW canvasH mouseX mouseY cache = some c →
        ∃ p ∈ cache, p.2.critter = c
          ∧ recordDistSq view canvasW canvasH mouseX mouseY p.2 < clickThresholdSq
          ∧ ∀ q ∈ cache, recordDistSq view canvasW canvasH mouseX mouseY p.2
              ≤ recordDistSq view canvasW canvasH mouseX mouseY q.2) := by
  have hinv := clickFold_inv (recordDistSq view canvasW canvasH mouseX mouseY)
    clickThresholdSq (cache.map Prod.snd) [] (none, none) (Or.inl ⟨rfl, by simp⟩)
  rw [List.nil_append, List.foldl_map] at hinv
  unfold handleCanvasClick
  rcases hinv with ⟨heq, hall⟩ | ⟨c, m, heq, hmt, hwit, hmin⟩
  · rw [heq]
    constructor
    · constructor
      · intro _ p hp
        exact hall p.2 (List.mem_map_of_mem Prod.snd hp)
      · intro _
        rfl
    · intro c hc
      exact Option.noConfusion hc
  · rw [heq]
    constructor
    · constructor
      · intro h
        exact Option.noConfusion h
      · intro hallp
        obtain ⟨r, hr, _, hrd⟩ := hwit
        obtain ⟨p, hp, hpr⟩ := List.mem_map.mp hr
        have hge := hallp p hp
        rw [hpr, hrd] at hge
        exact absurd hmt (not_lt.mpr hge)
    · intro c' hc'
      have hcc : c = c' := by simpa using hc'
      subst hcc
      obtain ⟨r, hr, hrc, hrd⟩ := hwit
      obtain ⟨p, hp, hpr⟩ := List.mem_map.mp hr
      refine ⟨p, hp, ?_, ?_, ?_⟩
      · rw [hpr]; exact hrc
      · rw [hpr, hrd]; exact hmt
      · intro q hq
        have hq2 := hmin q.2 (List.mem_map_of_mem Prod.snd hq)
        rw [hpr, hrd]
        exact hq2

def hitCrit1 : Critter := ⟨1, 10, 10, "HERBIVORE"⟩

def hitCrit2 : Critter := ⟨2, 12, 14, "CARNIVORE"⟩

def hitView : View := ⟨5, 5, 10, 10⟩

def hitCache : Cache := [(1, newRecord hitCrit1), (2, newRecord hitCrit2)]

/-- Closed witness for `hit_test_spec`: a 10×10 view on a 10×10 canvas (one
pixel per cell, transform `pos + 1/2`).  The pointer at (10.5, 10.5) sits
exactly on entity 1 at (10, 10); entity 2 at (12, 14) is also within the
radius (squared distance 20 < 81) but farther, so entity 1 is the minimal
choice; a pointer at (1000, 1000) is out of range of both, clearing the
selection. -/
theorem hit_test_spec_witness :
    (∃ p ∈ hitCache, p.2.critter = hitCrit1
      ∧ recordDistSq hitView 10 10 (21 / 2) (21 / 2) p.2 < clickThresholdSq
      ∧ ∀ q ∈ hitCache, recordDistSq hitView 10 10 (21 / 2) (21 / 2) p.2
          ≤ recordDistSq hitView 10 10 (21 / 2) (21 / 2) q.2)
    ∧ handleCanvasClick hitView 10 10 1000 1000 hitCache = none :=
  ⟨(hit_test_spec hitView 10 10 (21 / 2) (21 / 2) hitCache).2 hitCrit1 (by
      norm_num [handleCanvasClick, hitCache, hitView, hitCrit1, hitCrit2, newRecord,
        clickStep, recordDistSq, critterCanvasX, critterCanvasY, closerThan,
        clickThresholdSq, CRITTER_DRAW_RADIUS, CRITTER_CLICK_TOLERANCE]),
    (hit_test_spec hitView 10 10 1000 1000 hitCache).1.mpr (by
      norm_num [hitCache, hitView, hitCrit1, hitCrit2, newRecord, recordDistSq,
        critterCanvasX, critterCanvasY, clickThresholdSq, CRITTER_DRAW_RADIUS,
        CRITTER_CLICK_TOLERANCE])⟩

end Critters
